import Mathlib

/-!
# Shallow embedding of the SUTPlan week/date engine

This file embeds the core logic of the SUTPlan frontend
(`src/frontend/src/App.tsx`, `src/lib/weeks.ts` section, `src/types.ts`,
`ClassCard`) in Lean 4 and proves the spec's testable properties about it.

Modelling conventions:
* A JavaScript `Date` is its millisecond timestamp, an `Int`, on the naive
  local-time line (all dates the code constructs are local midnights; no
  DST shifts are modelled since none of the verified computations cross a
  getter/constructor boundary where an offset change would matter).
* `Date#getDate` / `Date#getMonth` are recovered from the timestamp through
  the standard civil-from-days algorithm (`civilFromDays`), and local civil
  dates are turned into timestamps through its inverse (`daysFromCivil`).
* `Math.floor(a / b)` on integer millisecond quantities is `Int.fdiv`
  (floor division).
* JavaScript `NaN` produced by `Number(...)` on a malformed string is
  modelled by `Option Int` being `none`; `x === y` on such values is
  `jsStrictEq`, which is `false` whenever either side is `none`.
* `parseInt(s, 10)` is `jsParseInt`, returning `none` for the `NaN` case.
* String primitives (`split`, comparison, digit parsing) are implemented
  structurally over the string's character list (`splitOnChar`, `charsLe`,
  `digitsVal`), mirroring JavaScript's code-unit semantics; the compared
  and split strings here are ASCII `YYYY-MM-DD` keys, on which JavaScript's
  default sort, `localeCompare`, and code-point lexicographic order agree.
-/

namespace SUTPlan

/-! ## Civil calendar arithmetic (models the `Date` internals) -/

/-- Days since 1970-01-01 of the civil date `(y, m, d)` with `m ∈ [1,12]`
(Howard Hinnant's `days_from_civil`, with floor division). -/
def daysFromCivil (y m d : Int) : Int :=
  let y2 := if m ≤ 2 then y - 1 else y
  let era := y2.fdiv 400
  let yoe := y2 - era * 400
  let mp := if 2 < m then m - 3 else m + 9
  let doy := (153 * mp + 2).fdiv 5 + d - 1
  let doe := yoe * 365 + yoe.fdiv 4 - yoe.fdiv 100 + doy
  era * 146097 + doe - 719468

/-- Civil date `(y, m, d)` of a count of days since 1970-01-01
(Howard Hinnant's `civil_from_days`, with floor division). -/
def civilFromDays (z : Int) : Int × Int × Int :=
  let z2 := z + 719468
  let era := z2.fdiv 146097
  let doe := z2 - era * 146097
  let yoe := (doe - doe.fdiv 1460 + doe.fdiv 36524 - doe.fdiv 146096).fdiv 365
  let y := yoe + era * 400
  let doy := doe - (365 * yoe + yoe.fdiv 4 - yoe.fdiv 100)
  let mp := (5 * doy + 2).fdiv 153
  let d := doy - (153 * mp + 2).fdiv 5 + 1
  let m := if mp < 10 then mp + 3 else mp - 9
  (if m ≤ 2 then y + 1 else y, m, d)

def MS_PER_DAY : Int := 24 * 60 * 60 * 1000
def MS_PER_WEEK : Int := 7 * MS_PER_DAY

/-- `Date#getDate` of a millisecond timestamp: day-of-month. -/
def dateGetDate (ms : Int) : Int := (civilFromDays (ms.fdiv MS_PER_DAY)).2.2

/-- `Date#getMonth` of a millisecond timestamp: zero-based month index. -/
def dateGetMonth (ms : Int) : Int := (civilFromDays (ms.fdiv MS_PER_DAY)).2.1 - 1

/-! ## Calendar Mapper (`weeks.ts`) -/

def ANCHOR_WEEK : Int := 19

/-- `new Date('2026-03-02T00:00:00')` — Monday 02 Mar 2026, local midnight. -/
def ANCHOR_MONDAY : Int := daysFromCivil 2026 3 2 * MS_PER_DAY

def FIRST_SEMESTER_WEEK : Int := 19

/-- `weekToMonday(week)`: Monday timestamp for a university week number. -/
def weekToMonday (week : Int) : Int :=
  ANCHOR_MONDAY + (week - ANCHOR_WEEK) * MS_PER_WEEK

/-- `weekToSunday(week)`: Sunday timestamp for a university week number. -/
def weekToSunday (week : Int) : Int :=
  weekToMonday week + 6 * MS_PER_DAY

/-- `dateToWeek(date)`: university week number for a date, clamped to `[1, 54]`
(the source's `diffMs` / `diffWeeks` / `week` intermediates are inlined). -/
def dateToWeek (date : Int) : Int :=
  max 1 (min 54 (ANCHOR_WEEK + (date - ANCHOR_MONDAY).fdiv MS_PER_WEEK))

/-- `currentWeek()`: week number for today, never before the semester start.
`today` is the current timestamp, made an explicit argument. -/
def currentWeek (today : Int) : Int :=
  max (dateToWeek today) FIRST_SEMESTER_WEEK

def PL_MONTHS : List String :=
  ["sty", "lut", "mar", "kwi", "maj", "cze",
   "lip", "sie", "wrz", "paź", "lis", "gru"]

/-- `fmt(date)`: e.g. `"9 mar"`. -/
def fmt (ms : Int) : String :=
  toString (dateGetDate ms) ++ " " ++ (PL_MONTHS.getD (dateGetMonth ms).toNat "undefined")

/-- `weekLabel(week)`: formula-only label, e.g. `"9 mar – 15 mar"`. -/
def weekLabel (week : Int) : String :=
  let mon := weekToMonday week
  let sun := weekToSunday week
  fmt mon ++ " – " ++ fmt sun

/-! ## Data model (`types.ts`) -/

/-- A schedule event as delivered by the data source. The `end` field of the
TypeScript interface is called `ending` here (`end` is a Lean keyword). -/
structure ScheduleEvent where
  uid : String
  start : String
  ending : String
  subject : Option String
  type : Option String
  teacher : Option String
  room : Option String
  summary_raw : String
deriving DecidableEq

/-- Display metadata for a class type (`types.ts` `ClassTypeMeta`). -/
structure ClassTypeMeta where
  label : String
  color : String
  textColor : String
  badgeBg : String
deriving DecidableEq

/-- `CLASS_TYPE_META` record from `types.ts`, as a key/value list. -/
def CLASS_TYPE_META : List (String × ClassTypeMeta) :=
  [("wyk",      ⟨"Wykład",       "bg-amber-500",  "text-amber-400",  "bg-amber-500/20"⟩),
   ("lab",      ⟨"Laboratorium", "bg-blue-500",   "text-blue-400",   "bg-blue-500/20"⟩),
   ("proj",     ⟨"Projekt",      "bg-purple-500", "text-purple-400", "bg-purple-500/20"⟩),
   ("ćw",       ⟨"Ćwiczenia",    "bg-green-500",  "text-green-400",  "bg-green-500/20"⟩),
   ("semin",    ⟨"Seminarium",   "bg-teal-500",   "text-teal-400",   "bg-teal-500/20"⟩),
   ("lektorat", ⟨"Lektorat",     "bg-rose-500",   "text-rose-400",   "bg-rose-500/20"⟩)]

def DEFAULT_TYPE_META : ClassTypeMeta :=
  ⟨"Zajęcia", "bg-gray-500", "text-gray-400", "bg-gray-500/20"⟩

/-- The property names every plain object literal inherits from
`Object.prototype`: bracket access on `CLASS_TYPE_META` with one of these
keys yields the inherited member (a function, or the prototype object for
`__proto__`) rather than `undefined`. -/
def OBJECT_PROTOTYPE_KEYS : List String :=
  ["constructor", "hasOwnProperty", "isPrototypeOf", "propertyIsEnumerable",
   "toLocaleString", "toString", "valueOf", "__proto__",
   "__defineGetter__", "__defineSetter__", "__lookupGetter__", "__lookupSetter__"]

/-- What `ClassCard`'s `meta` binding can hold: proper display metadata, or
an inherited `Object.prototype` member that leaks through the bracket
access — truthy and non-nullish, but not display metadata (its `label`,
`color`, … read as `undefined`). -/
inductive ResolvedMeta where
  | meta (m : ClassTypeMeta)
  | protoMember (name : String)
deriving DecidableEq

/-- JavaScript property access `CLASS_TYPE_META[s]`: own properties first,
then the `Object.prototype` chain; `none` is `undefined`. -/
def classTypeMetaAccess (s : String) : Option ResolvedMeta :=
  match List.lookup s CLASS_TYPE_META with
  | some m => some (ResolvedMeta.meta m)
  | none =>
    if s ∈ OBJECT_PROTOTYPE_KEYS then some (ResolvedMeta.protoMember s)
    else none

/-- `ClassCard`'s metadata resolution:
`event.type ? (CLASS_TYPE_META[event.type] ?? DEFAULT_TYPE_META) : DEFAULT_TYPE_META`.
A `null` type is `none`; the empty string is falsy in JavaScript, hence the
explicit empty-string branch. `??` substitutes the default only for a
nullish value, so an inherited prototype member passes through untouched. -/
def resolveClassMeta (t : Option String) : ResolvedMeta :=
  match t with
  | none => ResolvedMeta.meta DEFAULT_TYPE_META
  | some s =>
    if s = "" then ResolvedMeta.meta DEFAULT_TYPE_META
    else (classTypeMetaAccess s).getD (ResolvedMeta.meta DEFAULT_TYPE_META)

/-! ## String primitives (JavaScript semantics over character lists) -/

/-- `s.split(sep)` for a one-character separator, over character lists. -/
def splitOnChar (sep : Char) : List Char → List (List Char)
  | [] => [[]]
  | c :: rest =>
    match splitOnChar sep rest with
    | [] => if c = sep then [[], []] else [[c]]
    | g :: gs => if c = sep then [] :: g :: gs else (c :: g) :: gs

/-- `s.split(sep)` on strings, one-character separator. -/
def jsSplit (s : String) (sep : Char) : List String :=
  (splitOnChar sep s.toList).map (fun cs => String.mk cs)

/-- JavaScript string comparison (`<=` by code units) over character lists:
lexicographic, a proper prefix sorts first. -/
def charsLe : List Char → List Char → Bool
  | [], _ => true
  | _ :: _, [] => false
  | a :: as, b :: bs =>
    if a < b then true
    else if b < a then false
    else charsLe as bs

/-- JavaScript string comparison on strings; both the default `Array#sort`
comparator and `localeCompare` coincide with it on the ASCII day keys. -/
def strLe (a b : String) : Bool :=
  charsLe a.toList b.toList

/-- Value of a digit string (used under an all-digits guard). -/
def digitsVal (cs : List Char) : Nat :=
  cs.foldl (fun a c => a * 10 + (c.toNat - 48)) 0

/-! ## DateKey and Event Grouper (`App.tsx`) -/

/-- `toDateKey(isoString)`: the `YYYY-MM-DD` part of an ISO datetime string
(`isoString.split('T')[0]`). -/
def toDateKey (isoString : String) : String :=
  (jsSplit isoString 'T').headD ""

/-- One step of the `Map` building loop in `groupByDay`: a JavaScript `Map`
keeps keys in insertion order and `push` appends to the day's list. -/
def addToMap : List (String × List ScheduleEvent) → String → ScheduleEvent →
    List (String × List ScheduleEvent)
  | [], k, e => [(k, [e])]
  | (k', es) :: rest, k, e =>
    if k' = k then (k', es ++ [e]) :: rest
    else (k', es) :: addToMap rest k e

/-- `groupByDay(events)`: bucket events by day key, then sort the buckets by
key (`.sort(([a],[b]) => a.localeCompare(b))`, lexicographic on these keys). -/
def groupByDay (events : List ScheduleEvent) : List (String × List ScheduleEvent) :=
  List.insertionSort (fun p q => strLe p.1 q.1)
    (events.foldl (fun m e => addToMap m (toDateKey e.start) e) [])

/-! ## Label Formatter (`weeks.ts` `weekLabelFromEvents`) -/

/-- `Number(s)` on the substrings produced by splitting a date key on `-`:
the empty string converts to `0`, a digit string to its value, anything
else (and a missing destructuring component, `undefined`) to `NaN = none`. -/
def jsNum (s : String) : Option Int :=
  if s.toList.isEmpty then some 0
  else if s.toList.all Char.isDigit then some (Int.ofNat (digitsVal s.toList))
  else none

/-- `first.split('-').map(Number)` for a date key. -/
def keyNums (s : String) : List (Option Int) :=
  (jsSplit s '-').map jsNum

/-- The `fy`/`ly` component of the destructuring. -/
def keyYear (s : String) : Option Int := (keyNums s).getD 0 none

/-- The `fm`/`lm` component of the destructuring. -/
def keyMonth (s : String) : Option Int := (keyNums s).getD 1 none

/-- The `fd`/`ld` component of the destructuring. -/
def keyDay (s : String) : Option Int := (keyNums s).getD 2 none

/-- `new Date(y, monthIndex, day)`: two-digit years map to 1900+y, the month
index is normalised into the year by floor division, day overflow is plain
day arithmetic; any `NaN` argument yields an invalid date (`none`). -/
def jsMkDate (y mIdx d : Option Int) : Option Int :=
  match y, mIdx, d with
  | some y, some mi, some d =>
    let yFull := if 0 ≤ y ∧ y ≤ 99 then y + 1900 else y
    let yAdj := yFull + mi.fdiv 12
    let mAdj := mi.fmod 12 + 1
    some ((daysFromCivil yAdj mAdj 1 + (d - 1)) * MS_PER_DAY)
  | _, _, _ => none

/-- The `firstDate`/`lastDate` built from a date key:
`new Date(fy, fm - 1, fd)`. -/
def keyDate (s : String) : Option Int :=
  jsMkDate (keyYear s) ((keyMonth s).map (fun m => m - 1)) (keyDay s)

/-- JavaScript `===` on two possibly-`NaN` numbers: `NaN` equals nothing. -/
def jsStrictEq (a b : Option Int) : Bool :=
  match a, b with
  | some x, some y => x == y
  | _, _ => false

/-- Rendering `${firstDate.getDate()}` (an invalid date's getter is `NaN`). -/
def jsGetDateRender (o : Option Int) : String :=
  match o with
  | none => "NaN"
  | some ms => toString (dateGetDate ms)

/-- Rendering `${fmt(date)}` (an invalid date renders as `NaN undefined`). -/
def fmtRender (o : Option Int) : String :=
  match o with
  | none => "NaN undefined"
  | some ms => fmt ms

/-- The same-month branch: `` `${firstDate.getDate()} – ${fmt(lastDate)}` ``. -/
def sameMonthRender (first last : String) : String :=
  jsGetDateRender (keyDate first) ++ " – " ++ fmtRender (keyDate last)

/-- The different-months branch: `` `${fmt(firstDate)} – ${fmt(lastDate)}` ``. -/
def bothMonthsRender (first last : String) : String :=
  fmtRender (keyDate first) ++ " – " ++ fmtRender (keyDate last)

/-- The deduplicated, ascending-sorted day keys of the events' starts:
`Array.from(new Set(events.map(e => e.start.split('T')[0]))).sort()`. -/
def eventDateKeys (events : List ScheduleEvent) : List String :=
  List.insertionSort (fun a b => strLe a b)
    ((events.map (fun e => toDateKey e.start)).eraseDups)

/-- `dateKeys[0]`. -/
def firstKey (events : List ScheduleEvent) : String :=
  (eventDateKeys events).headD ""

/-- `dateKeys[dateKeys.length - 1]`. -/
def lastKey (events : List ScheduleEvent) : String :=
  (eventDateKeys events).getLastD ""

/-- `weekLabelFromEvents(events, week)`: label from actual event dates,
falling back to `weekLabel(week)` on an empty list. -/
def weekLabelFromEvents (events : List ScheduleEvent) (week : Int) : String :=
  if events.isEmpty then weekLabel week
  else if jsStrictEq (keyMonth (firstKey events)) (keyMonth (lastKey events)) then
    sameMonthRender (firstKey events) (lastKey events)
  else bothMonthsRender (firstKey events) (lastKey events)

/-! ## Navigation State (`App.tsx`) -/

def MIN_WEEK : Int := 19
def MAX_WEEK : Int := 54

/-- `changeWeek(next)`'s clamping:
`Math.max(MIN_WEEK, Math.min(MAX_WEEK, next))`; the result is both the new
cursor value and what is written to persisted storage. -/
def changeWeek (next : Int) : Int :=
  max MIN_WEEK (min MAX_WEEK next)

/-- `parseInt(s, 10)`: skip leading whitespace, optional sign, then the
longest digit prefix; `none` when no digits follow (the `NaN` case). -/
def parseDigits (cs : List Char) : Option Nat :=
  let ds := cs.takeWhile Char.isDigit
  if ds.isEmpty then none
  else some (ds.foldl (fun a c => a * 10 + (c.toNat - 48)) 0)

def jsParseInt (s : String) : Option Int :=
  match s.toList.dropWhile Char.isWhitespace with
  | '-' :: rest => (parseDigits rest).map (fun n => -(n : Int))
  | '+' :: rest => (parseDigits rest).map (fun n => (n : Int))
  | cs => (parseDigits cs).map (fun n => (n : Int))

/-- `getInitialWeek()`: `stored` is `localStorage.getItem(WEEK_KEY)` (absent
is `none`; the empty string is falsy), `today` the current timestamp. -/
def getInitialWeek (stored : Option String) (today : Int) : Int :=
  match stored with
  | none => currentWeek today
  | some s =>
    if s = "" then currentWeek today
    else
      match jsParseInt s with
      | none => currentWeek today
      | some n => if MIN_WEEK ≤ n ∧ n ≤ MAX_WEEK then n else currentWeek today

/-! ## Helper lemmas -/

lemma ms_per_week_pos : (0 : Int) < MS_PER_WEEK := by
  norm_num [MS_PER_WEEK, MS_PER_DAY]

lemma ms_per_week_ne_zero : MS_PER_WEEK ≠ 0 :=
  ms_per_week_pos.ne'

lemma fdiv_mono {a b c : Int} (hc : 0 < c) (h : a ≤ b) : a.fdiv c ≤ b.fdiv c := by
  rw [Int.fdiv_eq_ediv _ hc.le, Int.fdiv_eq_ediv _ hc.le]
  exact Int.ediv_le_ediv hc h

lemma dateToWeek_bounds (d : Int) : 1 ≤ dateToWeek d ∧ dateToWeek d ≤ 54 := by
  unfold dateToWeek
  exact ⟨le_max_left _ _, max_le (by norm_num) (min_le_left _ _)⟩

lemma currentWeek_bounds (today : Int) :
    19 ≤ currentWeek today ∧ currentWeek today ≤ 54 := by
  unfold currentWeek FIRST_SEMESTER_WEEK
  exact ⟨le_max_right _ _, max_le (dateToWeek_bounds today).2 (by norm_num)⟩

lemma charsLe_total : ∀ as bs : List Char, charsLe as bs = true ∨ charsLe bs as = true := by
  intro as
  induction as with
  | nil => intro bs; left; rfl
  | cons a as ih =>
    intro bs
    cases bs with
    | nil => right; rfl
    | cons b bs' =>
      rcases lt_trichotomy a b with hab | rfl | hab
      · left; simp [charsLe, hab]
      · rcases ih bs' with h | h
        · left; simp [charsLe, lt_irrefl, h]
        · right; simp [charsLe, lt_irrefl, h]
      · right; simp [charsLe, hab]

lemma charsLe_trans : ∀ as bs cs : List Char,
    charsLe as bs = true → charsLe bs cs = true → charsLe as cs = true := by
  intro as
  induction as with
  | nil => intro bs cs _ _; rfl
  | cons a as ih =>
    intro bs cs h1 h2
    cases bs with
    | nil => simp [charsLe] at h1
    | cons b bs' =>
      cases cs with
      | nil => simp [charsLe] at h2
      | cons c cs' =>
        rcases lt_trichotomy a b with hab | rfl | hab
        · rcases lt_trichotomy b c with hbc | rfl | hbc
          · simp [charsLe, lt_trans hab hbc]
          · simp [charsLe, hab]
          · simp [charsLe, lt_asymm hbc, hbc] at h2
        · rcases lt_trichotomy a c with hbc | rfl | hbc
          · simp [charsLe, hbc]
          · simp only [charsLe, lt_irrefl, if_false] at h1 h2 ⊢
            exact ih _ _ h1 h2
          · simp [charsLe, lt_asymm hbc, hbc] at h2
        · simp [charsLe, lt_asymm hab, hab] at h1

lemma strLe_total (a b : String) : strLe a b = true ∨ strLe b a = true :=
  charsLe_total _ _

lemma strLe_trans {a b c : String} (h1 : strLe a b = true) (h2 : strLe b c = true) :
    strLe a c = true :=
  charsLe_trans _ _ _ h1 h2

lemma foldl_addToMap_const (k : String) :
    ∀ es : List ScheduleEvent, (∀ e ∈ es, toDateKey e.start = k) →
      ∀ acc : List ScheduleEvent,
        es.foldl (fun m e => addToMap m (toDateKey e.start) e) [(k, acc)] =
          [(k, acc ++ es)] := by
  intro es
  induction es with
  | nil => intro _ acc; simp
  | cons e tl ih =>
    intro h acc
    have hk : toDateKey e.start = k := h e (List.mem_cons_self e tl)
    have step : addToMap [(k, acc)] (toDateKey e.start) e = [(k, acc ++ [e])] := by
      rw [hk]; simp [addToMap]
    rw [List.foldl_cons, step,
      ih (fun e' he' => h e' (List.mem_cons_of_mem e he')) (acc ++ [e])]
    simp

/-! ## Claims -/

/-- C1: for every integer week `w` in `[1, 54]`,
`dateToWeek (weekToMonday w) = w` — the week-to-Monday mapping is a section
of `dateToWeek` on the valid range. -/
theorem dateToWeek_weekToMonday_roundtrip (w : Int) (h1 : 1 ≤ w) (h2 : w ≤ 54) :
    dateToWeek (weekToMonday w) = w := by
  unfold dateToWeek weekToMonday
  have e1 : ANCHOR_MONDAY + (w - ANCHOR_WEEK) * MS_PER_WEEK - ANCHOR_MONDAY
      = (w - ANCHOR_WEEK) * MS_PER_WEEK := by ring
  rw [e1, Int.mul_fdiv_cancel _ ms_per_week_ne_zero]
  unfold ANCHOR_WEEK
  omega

theorem dateToWeek_weekToMonday_roundtrip_witness :
    (1 : Int) ≤ 20 ∧ (20 : Int) ≤ 54 ∧ dateToWeek (weekToMonday 20) = 20 :=
  ⟨by norm_num, by norm_num,
   dateToWeek_weekToMonday_roundtrip 20 (by norm_num) (by norm_num)⟩

/-- C2: the week cursor is always within `[MIN_WEEK, MAX_WEEK] = [19, 54]`:
after initialization (`getInitialWeek`) and after every `changeWeek`;
`changeWeek` clamps values below `MIN_WEEK` to exactly `MIN_WEEK` and values
above `MAX_WEEK` to exactly `MAX_WEEK` (total, no error path). -/
theorem week_cursor_always_clamped :
    (∀ (stored : Option String) (today : Int),
        MIN_WEEK ≤ getInitialWeek stored today ∧
        getInitialWeek stored today ≤ MAX_WEEK) ∧
    (∀ next : Int, MIN_WEEK ≤ changeWeek next ∧ changeWeek next ≤ MAX_WEEK) ∧
    (∀ next : Int, next < MIN_WEEK → changeWeek next = MIN_WEEK) ∧
    (∀ next : Int, MAX_WEEK < next → changeWeek next = MAX_WEEK) := by
  refine ⟨?_, ?_, ?_, ?_⟩
  · intro stored today
    have hcw := currentWeek_bounds today
    unfold getInitialWeek MIN_WEEK MAX_WEEK
    split
    · exact hcw
    · split
      · exact hcw
      · split
        · exact hcw
        · split
          · rename_i hn
            exact hn
          · exact hcw
  · intro next
    unfold changeWeek MIN_WEEK MAX_WEEK
    omega
  · intro next h
    simp only [changeWeek, MIN_WEEK, MAX_WEEK] at h ⊢
    omega
  · intro next h
    simp only [changeWeek, MIN_WEEK, MAX_WEEK] at h ⊢
    omega

theorem week_cursor_always_clamped_witness :
    (MIN_WEEK ≤ getInitialWeek (some "99") 0 ∧
     getInitialWeek (some "99") 0 ≤ MAX_WEEK) ∧
    (5 : Int) < MIN_WEEK ∧ changeWeek 5 = MIN_WEEK ∧
    MAX_WEEK < (100 : Int) ∧ changeWeek 100 = MAX_WEEK :=
  ⟨week_cursor_always_clamped.1 (some "99") 0,
   by norm_num [MIN_WEEK],
   week_cursor_always_clamped.2.2.1 5 (by norm_num [MIN_WEEK]),
   by norm_num [MAX_WEEK],
   week_cursor_always_clamped.2.2.2 100 (by norm_num [MAX_WEEK])⟩

/-- C3: `dateToWeek` is monotonically non-decreasing in the date, and its
value lies in `[1, 54]` for every date, however far from the anchor. -/
theorem dateToWeek_monotone_and_clamped :
    (∀ d1 d2 : Int, d1 ≤ d2 → dateToWeek d1 ≤ dateToWeek d2) ∧
    (∀ d : Int, 1 ≤ dateToWeek d ∧ dateToWeek d ≤ 54) := by
  constructor
  · intro d1 d2 h
    unfold dateToWeek
    have hm : (d1 - ANCHOR_MONDAY).fdiv MS_PER_WEEK ≤
        (d2 - ANCHOR_MONDAY).fdiv MS_PER_WEEK :=
      fdiv_mono ms_per_week_pos (by omega)
    exact max_le_max le_rfl (min_le_min le_rfl (by omega))
  · exact dateToWeek_bounds

theorem dateToWeek_monotone_and_clamped_witness :
    ((0 : Int) ≤ 1772931600000 ∧ dateToWeek 0 ≤ dateToWeek 1772931600000) ∧
    (1 ≤ dateToWeek 0 ∧ dateToWeek 0 ≤ 54) :=
  ⟨⟨by norm_num,
    dateToWeek_monotone_and_clamped.1 0 1772931600000 (by norm_num)⟩,
   dateToWeek_monotone_and_clamped.2 0⟩

/-- C4: with the anchor week 19 = Monday 2026-03-02, `weekToMonday 20` is
2026-03-09 and `weekLabel 20` is `"9 mar – 15 mar"` (Monday 2026-03-09
through Sunday 2026-03-15); for every week `w`, `weekToSunday w` minus
`weekToMonday w` is exactly 6 days. -/
theorem week20_label_and_six_day_span :
    weekToMonday 20 = daysFromCivil 2026 3 9 * MS_PER_DAY ∧
    civilFromDays ((weekToMonday 20).fdiv MS_PER_DAY) = (2026, 3, 9) ∧
    civilFromDays ((weekToSunday 20).fdiv MS_PER_DAY) = (2026, 3, 15) ∧
    weekLabel 20 = "9 mar – 15 mar" ∧
    ∀ w : Int, weekToSunday w - weekToMonday w = 6 * MS_PER_DAY :=
  ⟨by decide, by decide, by decide, by decide,
   fun w => by unfold weekToSunday; ring⟩

/-- C8: on an empty event list, `weekLabelFromEvents` returns exactly the
formula-only `weekLabel` for every week number. -/
theorem weekLabelFromEvents_nil (w : Int) :
    weekLabelFromEvents [] w = weekLabel w := rfl

/-- Two same-month events, starting 2026-03-09 and 2026-03-13. -/
def c5SameMonth : List ScheduleEvent :=
  [⟨"c5a", "2026-03-09T08:15:00+01:00", "2026-03-09T09:45:00+01:00",
    none, none, none, none, "A"⟩,
   ⟨"c5b", "2026-03-13T10:00:00+01:00", "2026-03-13T11:30:00+01:00",
    none, none, none, none, "B"⟩]

/-- Two cross-month events, starting 2026-03-30 and 2026-04-03. -/
def c5CrossMonth : List ScheduleEvent :=
  [⟨"c5c", "2026-03-30T08:15:00+02:00", "2026-03-30T09:45:00+02:00",
    none, none, none, none, "C"⟩,
   ⟨"c5d", "2026-04-03T10:00:00+02:00", "2026-04-03T11:30:00+02:00",
    none, none, none, none, "D"⟩]

/-- C5: on a non-empty event list, `weekLabelFromEvents` renders the first
and last of the deduplicated ascending-sorted event days with a single month
mention when their months agree and with both months otherwise; concretely,
start days 2026-03-09 and 2026-03-13 yield `"9 – 13 mar"`, and 2026-03-30
and 2026-04-03 yield `"30 mar – 3 kwi"`. -/
theorem weekLabelFromEvents_first_last_rendering :
    (∀ (es : List ScheduleEvent) (w : Int), es ≠ [] →
        jsStrictEq (keyMonth (firstKey es)) (keyMonth (lastKey es)) = true →
        weekLabelFromEvents es w = sameMonthRender (firstKey es) (lastKey es)) ∧
    (∀ (es : List ScheduleEvent) (w : Int), es ≠ [] →
        jsStrictEq (keyMonth (firstKey es)) (keyMonth (lastKey es)) = false →
        weekLabelFromEvents es w = bothMonthsRender (firstKey es) (lastKey es)) ∧
    (∀ w : Int, weekLabelFromEvents c5SameMonth w = "9 – 13 mar") ∧
    (∀ w : Int, weekLabelFromEvents c5CrossMonth w = "30 mar – 3 kwi") := by
  refine ⟨?_, ?_, fun w => rfl, fun w => rfl⟩
  · intro es w hne hb
    cases es with
    | nil => exact absurd rfl hne
    | cons e tl => simp [weekLabelFromEvents, hb]
  · intro es w hne hb
    cases es with
    | nil => exact absurd rfl hne
    | cons e tl => simp [weekLabelFromEvents, hb]

theorem weekLabelFromEvents_first_last_rendering_witness :
    weekLabelFromEvents c5SameMonth 20 =
      sameMonthRender (firstKey c5SameMonth) (lastKey c5SameMonth) ∧
    weekLabelFromEvents c5CrossMonth 20 =
      bothMonthsRender (firstKey c5CrossMonth) (lastKey c5CrossMonth) :=
  ⟨weekLabelFromEvents_first_last_rendering.1 c5SameMonth 20
      (by decide) (by decide),
   weekLabelFromEvents_first_last_rendering.2.1 c5CrossMonth 20
      (by decide) (by decide)⟩

/-- Two events on the same calendar day 2026-03-09. -/
def c6Events : List ScheduleEvent :=
  [⟨"c6a", "2026-03-09T08:15:00+01:00", "2026-03-09T09:45:00+01:00",
    none, none, none, none, "A"⟩,
   ⟨"c6b", "2026-03-09T10:00:00+01:00", "2026-03-09T11:30:00+01:00",
    none, none, none, none, "B"⟩]

/-- C6: `groupByDay` maps the empty list to the empty sequence; a non-empty
list of events sharing one calendar day to exactly one bucket holding all of
them in original relative order; and its output is always sorted ascending
by DateKey string comparison. -/
theorem groupByDay_empty_single_sorted :
    groupByDay [] = [] ∧
    (∀ (k : String) (es : List ScheduleEvent), es ≠ [] →
        (∀ e ∈ es, toDateKey e.start = k) → groupByDay es = [(k, es)]) ∧
    (∀ es : List ScheduleEvent,
        List.Sorted (fun p q => strLe p.1 q.1) (groupByDay es)) := by
  refine ⟨rfl, ?_, ?_⟩
  · intro k es hne h
    cases es with
    | nil => exact absurd rfl hne
    | cons e tl =>
      unfold groupByDay
      rw [List.foldl_cons]
      have hk : toDateKey e.start = k := h e (List.mem_cons_self e tl)
      have step : addToMap [] (toDateKey e.start) e = [(k, [e])] := by
        rw [hk]
        rfl
      rw [step,
        foldl_addToMap_const k tl (fun e' he' => h e' (List.mem_cons_of_mem e he')) [e]]
      simp [List.insertionSort, List.orderedInsert]
  · intro es
    haveI h1 : IsTotal (String × List ScheduleEvent) (fun p q => strLe p.1 q.1) :=
      ⟨fun a b => strLe_total a.1 b.1⟩
    haveI h2 : IsTrans (String × List ScheduleEvent) (fun p q => strLe p.1 q.1) :=
      ⟨fun _ _ _ hab hbc => strLe_trans hab hbc⟩
    exact List.sorted_insertionSort _ _

theorem groupByDay_empty_single_sorted_witness :
    groupByDay [] = [] ∧
    groupByDay c6Events = [("2026-03-09", c6Events)] ∧
    List.Sorted (fun p q => strLe p.1 q.1) (groupByDay c6Events) :=
  ⟨groupByDay_empty_single_sorted.1,
   groupByDay_empty_single_sorted.2.1 "2026-03-09" c6Events (by decide) (by decide),
   groupByDay_empty_single_sorted.2.2 c6Events⟩

/-- C7: a persisted value that is absent, non-numeric, or out of
`[MIN_WEEK, MAX_WEEK]` yields the same initial week as no persisted value at
all, namely `currentWeek()`. -/
theorem getInitialWeek_corrupt_fallback (stored : Option String) (today : Int)
    (h : ∀ s, stored = some s → s = "" ∨ jsParseInt s = none ∨
        ∀ n : Int, jsParseInt s = some n → n < MIN_WEEK ∨ MAX_WEEK < n) :
    getInitialWeek stored today = getInitialWeek none today ∧
    getInitialWeek none today = currentWeek today := by
  refine ⟨?_, rfl⟩
  show getInitialWeek stored today = currentWeek today
  unfold getInitialWeek
  split
  · rfl
  · rename_i s
    split
    · rfl
    · rename_i hse
      split
      · rfl
      · rename_i n hj
        rcases h s rfl with he | hp | hout
        · exact absurd he hse
        · rw [hp] at hj
          cases hj
        · have hn := hout n hj
          have hcond : ¬ (MIN_WEEK ≤ n ∧ n ≤ MAX_WEEK) := by
            simp only [MIN_WEEK, MAX_WEEK] at hn ⊢
            omega
          rw [if_neg hcond]

theorem getInitialWeek_corrupt_fallback_witness :
    getInitialWeek (some "abc") 1772931600000 = currentWeek 1772931600000 ∧
    getInitialWeek (some "5") 1772931600000 = currentWeek 1772931600000 := by
  have h1 := getInitialWeek_corrupt_fallback (some "abc") 1772931600000
    (by
      intro s hs
      injection hs with hs2
      subst hs2
      exact Or.inr (Or.inl (by decide)))
  have h2 := getInitialWeek_corrupt_fallback (some "5") 1772931600000
    (by
      intro s hs
      injection hs with hs2
      subst hs2
      refine Or.inr (Or.inr ?_)
      intro n hn
      have h5v : jsParseInt "5" = some 5 := by decide
      rw [h5v] at hn
      injection hn with hn2
      subst hn2
      exact Or.inl (by decide))
  exact ⟨h1.1.trans h1.2, h2.1.trans h2.2⟩

/-- C9 counterexample: `"toString"` is not one of the recognized
classification tags, yet `ClassCard`'s resolution does not substitute the
default display category for it — the bracket access finds the inherited
`Object.prototype.toString`, which is truthy and non-nullish, so neither
the truthiness test nor the `??` fallback fires. -/
theorem resolveClassMeta_toString_not_default :
    List.lookup "toString" CLASS_TYPE_META = none ∧
    resolveClassMeta (some "toString") ≠ ResolvedMeta.meta DEFAULT_TYPE_META :=
  ⟨by decide, by decide⟩

/-- C9 (amended): for a `type` that is absent, empty, or a string that is
neither a recognized classification tag nor an inherited
`Object.prototype` property name, `ClassCard` resolves to the default
display category; the resolution is a total function (it never throws). -/
theorem resolveClassMeta_unrecognized_nonproto_default (t : Option String)
    (h : ∀ s, t = some s →
        List.lookup s CLASS_TYPE_META = none ∧ s ∉ OBJECT_PROTOTYPE_KEYS) :
    resolveClassMeta t = ResolvedMeta.meta DEFAULT_TYPE_META := by
  unfold resolveClassMeta
  split
  · rfl
  · rename_i s
    split
    · rfl
    · have hs := h s rfl
      simp only [classTypeMetaAccess, hs.1]
      rw [if_neg hs.2]
      rfl

theorem resolveClassMeta_unrecognized_nonproto_default_witness :
    resolveClassMeta (some "lecture") = ResolvedMeta.meta DEFAULT_TYPE_META ∧
    resolveClassMeta none = ResolvedMeta.meta DEFAULT_TYPE_META :=
  ⟨resolveClassMeta_unrecognized_nonproto_default (some "lecture")
      (by
        intro s hs
        injection hs with hs2
        subst hs2
        exact ⟨by decide, by decide⟩),
   resolveClassMeta_unrecognized_nonproto_default none
      (fun _ hs => Option.noConfusion hs)⟩

/-- Two events whose start days share the month number 3 but lie in
different years, 2026-03-15 and 2027-03-20. -/
def c10Events : List ScheduleEvent :=
  [⟨"c10a", "2026-03-15T08:15:00+01:00", "2026-03-15T09:45:00+01:00",
    none, none, none, none, "A"⟩,
   ⟨"c10b", "2027-03-20T10:00:00+01:00", "2027-03-20T11:30:00+01:00",
    none, none, none, none, "B"⟩]

/-- C10: `weekLabelFromEvents` chooses the single-month rendering by
comparing only the parsed month numbers of the first and last event days:
even when their years differ, equal month numbers still produce the
single-month form, with no indication of the year difference. -/
theorem weekLabelFromEvents_ignores_year (es : List ScheduleEvent) (w m : Int)
    (hne : es ≠ [])
    (hf : keyMonth (firstKey es) = some m)
    (hl : keyMonth (lastKey es) = some m)
    (hy : keyYear (firstKey es) ≠ keyYear (lastKey es)) :
    weekLabelFromEvents es w = sameMonthRender (firstKey es) (lastKey es) := by
  cases es with
  | nil => exact absurd rfl hne
  | cons e tl =>
    have hb : jsStrictEq (keyMonth (firstKey (e :: tl)))
        (keyMonth (lastKey (e :: tl))) = true := by
      rw [hf, hl]
      simp [jsStrictEq]
    simp [weekLabelFromEvents, hb]

theorem weekLabelFromEvents_ignores_year_witness :
    keyYear (firstKey c10Events) ≠ keyYear (lastKey c10Events) ∧
    weekLabelFromEvents c10Events 20 = "15 – 20 mar" := by
  have h := weekLabelFromEvents_ignores_year c10Events 20 3
    (by decide) (by decide) (by decide) (by decide)
  refine ⟨by decide, ?_⟩
  rw [h]
  decide

end SUTPlan
